import Mathlib

/-!
Shallow embedding of the Morpheus AppShield ingestion and schema-reconciliation
core: `PreallocatorMixin._preallocate_df` / `_post_build_single`
(morpheus/pipeline/preallocator_mixin.py) and the static methods of
`AppShieldSourceStage` (morpheus/stages/input/appshield_source_stage.py).

Dataframes are modelled row-wise: an ordered column-name list plus rows of
cells aligned positionally with the columns.  Python exceptions are modelled
with `Except` over an explicit error type; only the exception classes the
source distinguishes (`JSONDecodeError` vs everything else, `ValueError`,
`KeyError`, `IndexError`, `RuntimeError`) are represented.
-/

namespace Morpheus

/-- Column element types declared in a required-column spec
(mirrors `morpheus.common.TypeId`). -/
inductive TypeId where
  | bool8 | int8 | int16 | int32 | int64
  | uint8 | uint16 | uint32 | uint64
  | float32 | float64 | string
deriving DecidableEq

/-- Cell values held by a dataframe.  Floating-point cells only ever hold the
exact fill value `0` in the code under verification, so they are represented
exactly (`Rat`) rather than as IEEE floats.  `null` stands for Python
`None`/`NaN` fills. -/
inductive Val where
  | int (i : Int)
  | float (q : Rat)
  | bool (b : Bool)
  | str (s : String)
  | null
deriving DecidableEq

/-- The Python exception classes the source code distinguishes. -/
inductive PyErr where
  | jsonDecodeError (msg : String)
  | unicodeDecodeError (msg : String)
  | valueError (msg : String)
  | keyError (msg : String)
  | indexError (msg : String)
  | runtimeError (msg : String)
deriving DecidableEq

/-- `except JSONDecodeError` discriminator. -/
def isJSONDecodeError : PyErr → Bool
  | PyErr.jsonDecodeError _ => true
  | _ => false

/-- The decoded content of one AppShield file: top-level `titles` and `data`
arrays (the shape `json.load` must produce for `read_file_to_df`). -/
structure RecordSet where
  titles : List String
  data : List (List Val)
deriving DecidableEq

/-- A pandas-style dataframe: ordered column names and rows of cells aligned
positionally with the columns. -/
structure DF where
  cols : List String
  rows : List (List Val)
deriving DecidableEq

/-- `len(df)`: the number of rows. -/
def DF.nrows (df : DF) : Nat := df.rows.length

/-- Wellformedness of a frame: every row has one cell per column and column
names are unique (pandas keeps column labels unique under `df[c] = ...`). -/
def DF.Wf (df : DF) : Prop :=
  (∀ r ∈ df.rows, r.length = df.cols.length) ∧ df.cols.Nodup

/-- The cell of row `r` (aligned with `cols`) in column `c`; `Val.null` when
the column is absent (callers in this development only read present columns,
where pandas would raise `KeyError`). -/
def rowGet (cols : List String) (r : List Val) (c : String) : Val :=
  (((cols.zip r).find? (fun p => p.1 == c)).map Prod.snd).getD Val.null

/-- `df[c] = vals`: replace the column in place when the label exists,
otherwise append it on the right (pandas column-assignment semantics). -/
def DF.setCol (df : DF) (c : String) (vals : List Val) : DF :=
  match df.cols.findIdx? (fun c2 => c2 == c) with
  | some i => ⟨df.cols, List.zipWith (fun r v => r.set i v) df.rows vals⟩
  | none => ⟨df.cols ++ [c], List.zipWith (fun r v => r ++ [v]) df.rows vals⟩

/-- `df[c] = scalar`: broadcast a scalar to every row. -/
def DF.setScalar (df : DF) (c : String) (v : Val) : DF :=
  df.setCol c (List.replicate df.nrows v)

/-- `df[c]` as a column read: `none` models pandas `KeyError`. -/
def DF.getCol (df : DF) (c : String) : Option (List Val) :=
  if c ∈ df.cols then some (df.rows.map (fun r => rowGet df.cols r c)) else none

/-- `df[names]`: column projection/reordering.  Every name in `names` is
present at each call site in this development (pandas raises `KeyError`
otherwise). -/
def DF.selectCols (df : DF) (names : List String) : DF :=
  ⟨names, df.rows.map (fun r => names.map (fun c => rowGet df.cols r c))⟩

/-- `df.drop(columns=names)`: keep the complement, in original order.  At
each call site the dropped names are taken from `df.columns`, so pandas'
`KeyError` case cannot arise. -/
def DF.dropCols (df : DF) (names : List String) : DF :=
  df.selectCols (df.cols.filter (fun c => c ∉ names))

/-- Python `str.split(sep)` on an explicit separator, over char lists. -/
def splitOnCharAux (sep : Char) : List Char → List Char → List (List Char)
  | [], acc => [acc.reverse]
  | c :: rest, acc =>
    if c = sep then acc.reverse :: splitOnCharAux sep rest []
    else splitOnCharAux sep rest (c :: acc)

/-- Python `s.split(sep)` (single-character separator, no maxsplit). -/
def pySplit (sep : Char) (s : String) : List String :=
  (splitOnCharAux sep s.data []).map (fun l => String.mk l)

/-- ASCII decimal digit test. -/
def isDigitChar (c : Char) : Bool := '0' ≤ c && c ≤ '9'

/-- Numeric value of a digit string. -/
def digitsVal (l : List Char) : Nat :=
  l.foldl (fun acc c => 10 * acc + (c.toNat - '0'.toNat)) 0

/-- Parse a non-empty all-digit char list. -/
def digitsToNat (l : List Char) : Option Nat :=
  if !l.isEmpty && l.all isDigitChar then some (digitsVal l) else none

/-- The numeric core of Python `int(str)`: optional sign followed by digits;
`none` models the `ValueError` it raises otherwise.  (Whitespace and
underscore forms of `int()` are never produced by the snapshot directory
names this pipeline parses.) -/
def parsePyInt (s : String) : Option Int :=
  match s.data with
  | '-' :: ds => (digitsToNat ds).map (fun n => -(n : Int))
  | '+' :: ds => (digitsToNat ds).map (fun n => (n : Int))
  | ds => (digitsToNat ds).map (fun n => (n : Int))

/-- ASCII lowercase letter test, `[a-z]` of the timestamp pattern. -/
def isLowerAZ (c : Char) : Bool := 'a' ≤ c && c ≤ 'z'

/-- The character class `[0-9-_.]` of the timestamp pattern. -/
def isTsChar (c : Char) : Bool := isDigitChar c || c == '-' || c == '_' || c == '.'

/-- Tail pattern `.json` (unescaped dot: any char, then literal `json`),
matched as a prefix of the remaining input (`re.search` does not anchor the
end). -/
def matchesDotJson : List Char → Bool
  | _ :: 'j' :: 's' :: 'o' :: 'n' :: _ => true
  | _ => false

/-- Greedy backtracking for the capture group `([0-9-_.]+)`: try the longest
candidate length first (the argument `k` starts at the maximal `[0-9-_.]` run
length) and shrink until the `.json` tail matches; `none` once the group
would be empty. -/
def findGroup (l : List Char) : Nat → Option (List Char)
  | 0 => none
  | Nat.succ k =>
    if matchesDotJson (l.drop (k + 1)) then some (l.take (k + 1))
    else findGroup l k

/-- Attempt to match `[a-z]+_([0-9-_.]+).json` starting exactly at the head
of `l`, returning the captured group.  `[a-z]+` needs no backtracking: the
character after the maximal lowercase run is not lowercase, and the required
`_` is not lowercase either, so only the maximal run can be followed by
`_`. -/
def matchAtStart (l : List Char) : Option (List Char) :=
  let run := l.takeWhile isLowerAZ
  if run.isEmpty then none
  else
    match l.drop run.length with
    | '_' :: rest => findGroup rest (rest.takeWhile isTsChar).length
    | _ => none

/-- `re.search`: scan start positions left to right, return the first
(leftmost) match. -/
def searchTs : List Char → Option (List Char)
  | [] => none
  | c :: rest =>
    match matchAtStart (c :: rest) with
    | some g => some g
    | none => searchTs rest

/-- `re.search('[a-z]+_([0-9-_.]+).json', s)` returning `group(1)`. -/
def reSearchTs (s : String) : Option String :=
  (searchTs s.data).map (fun l => String.mk l)

/-- Zero value materialized by `np.zeros`/`cp.zeros` for each dtype (the
`TypeId.string` row corresponds to the `df[c] = ''` branch of
`_preallocate_df`, which never calls `zeros`). -/
def zeroVal : TypeId → Val
  | TypeId.float32 => Val.float 0
  | TypeId.float64 => Val.float 0
  | TypeId.bool8 => Val.bool false
  | TypeId.string => Val.str ""
  | _ => Val.int 0

/-- The keys of the ordered `_needed_columns` mapping. -/
def neededKeys (needed : List (String × TypeId)) : List String :=
  needed.map Prod.fst

/-- `self._needed_columns[c]` (first binding wins; `_needed_columns` is an
`OrderedDict`, so keys are unique at every call site). -/
def typeOf (needed : List (String × TypeId)) (c : String) : TypeId :=
  ((needed.find? (fun p => p.1 == c)).map Prod.snd).getD TypeId.string

/-- The fill value `_preallocate_df` materializes for a missing column:
zeros for non-string dtypes, the empty string for `TypeId.string`. -/
def preallocFill (needed : List (String × TypeId)) (c : String) : Val :=
  if typeOf needed c ≠ TypeId.string then zeroVal (typeOf needed c)
  else Val.str ""

/-- One iteration of the `for column_name in missing_columns` loop of
`_preallocate_df`; `numRows` is the `num_rows = len(df)` captured before the
loop (row count is invariant under column insertion, so using `d.nrows` for
the string branch matches `df[column_name] = ''`). -/
def preallocStep (needed : List (String × TypeId)) (numRows : Nat) (d : DF) (c : String) : DF :=
  if typeOf needed c ≠ TypeId.string then
    d.setCol c (List.replicate numRows (zeroVal (typeOf needed c)))
  else d.setCol c (List.replicate d.nrows (Val.str ""))

/-- `PreallocatorMixin._preallocate_df`: append every needed column missing
from `df`, zero-filled (or `''`-filled for strings); columns already present
are untouched. -/
def preallocate_df (needed : List (String × TypeId)) (df : DF) : DF :=
  let missing := (neededKeys needed).filter (fun c => c ∉ df.cols)
  if missing.length > 0 then missing.foldl (preallocStep needed df.nrows) df
  else df

/-- `pd.DataFrame(columns=cols, data=data)` for list-of-lists data: empty
data gives an empty frame with the given columns; otherwise the column count
must equal the widest row (`ValueError` otherwise, pandas'
"N columns passed, passed data had M columns"), and narrower rows are
padded with `NaN`. -/
def pdDataFrame (cols : List String) (data : List (List Val)) : Except PyErr DF :=
  match data with
  | [] => Except.ok ⟨cols, []⟩
  | _ =>
    let w := (data.map List.length).foldl max 0
    if w = cols.length then
      Except.ok ⟨cols, data.map (fun r => r ++ List.replicate (cols.length - r.length) Val.null)⟩
    else Except.error (PyErr.valueError "columns passed, passed data had different width")

/-- `AppShieldSourceStage.read_file_to_df` after `json.load`: first try to
build the frame restricted to the titles not excluded; on `ValueError`
rebuild from the full `titles` and drop `columns.difference(features)`. -/
def read_file_to_df (rs : RecordSet) (cols_exclude : List String) : Except PyErr DF :=
  let features_plugin := rs.titles.filter (fun c => c ∉ cols_exclude)
  match pdDataFrame features_plugin rs.data with
  | Except.ok plugin_df => Except.ok plugin_df
  | Except.error (PyErr.valueError _) =>
    match pdDataFrame rs.titles rs.data with
    | Except.ok plugin_df =>
      Except.ok (plugin_df.dropCols (plugin_df.cols.filter (fun c => c ∉ features_plugin)))
    | Except.error e => Except.error e
  | Except.error e => Except.error e

/-- One `open(filepath, encoding=enc)` + `read_file_to_df` attempt.  `read`
abstracts the external file: per encoding it yields the decoded
`titles`/`data` record set or the exception the read/parse raised. -/
def loadAttempt (read : String → Except PyErr RecordSet)
    (cols_exclude : List String) (enc : String) : Except PyErr DF :=
  match read enc with
  | Except.error e => Except.error e
  | Except.ok rs => read_file_to_df rs cols_exclude

/-- `encoding.lower().startswith('utf')`. -/
def utfCheck (enc : String) : Bool :=
  "utf".data.isPrefixOf (enc.data.map Char.toLower)

/-- `AppShieldSourceStage.load_df`: try the configured encoding; on
`JSONDecodeError` re-raise when the lowercased encoding starts with `utf`,
otherwise retry exactly once with `utf-8`.  Any other exception
propagates. -/
def load_df (read : String → Except PyErr RecordSet)
    (cols_exclude : List String) (encoding : String) : Except PyErr DF :=
  match loadAttempt read cols_exclude encoding with
  | Except.ok plugin_df => Except.ok plugin_df
  | Except.error e =>
    if isJSONDecodeError e then
      if utfCheck encoding then Except.error e
      else loadAttempt read cols_exclude "utf-8"
    else Except.error e

/-- `AppShieldSourceStage.fill_interested_cols`: add a `None` column for
every interested column absent from the frame, then project/reorder to
exactly `cols_include`. -/
def fill_interested_cols (plugin_df : DF) (cols_include : List String) : DF :=
  let filled := cols_include.foldl
    (fun d c => if c ∈ d.cols then d else d.setScalar c Val.null) plugin_df
  filled.selectCols cols_include

/-- `AppShieldSourceStage.load_meta_cols`: derive `source`, `snapshot_id`
and `timestamp` from the `/`-split path and broadcast them (plus the plugin
name) as columns.  `ValueError` for a short split, a non-integer snapshot
token or an unmatched timestamp pattern; `IndexError` when the
second-from-last segment has no `-`-delimited second token. -/
def load_meta_cols (filepath_split : List String) (plugin : String)
    (plugin_df : DF) : Except PyErr DF :=
  if filepath_split.length < 3 then
    Except.error (PyErr.valueError "Invalid filepath_split. Length should be greater than 2")
  else
    let source := filepath_split.getD (filepath_split.length - 3) ""
    match (pySplit '-' (filepath_split.getD (filepath_split.length - 2) "")).drop 1 with
    | [] => Except.error (PyErr.indexError "list index out of range")
    | tok :: _ =>
      match parsePyInt tok with
      | none => Except.error (PyErr.valueError "invalid literal for int with base 10")
      | some snapshot_id =>
        match reSearchTs (filepath_split.getD (filepath_split.length - 1) "") with
        | none => Except.error (PyErr.valueError "Invalid format for filepath_split")
        | some timestamp =>
          Except.ok ((((plugin_df.setScalar "snapshot_id" (Val.int snapshot_id)).setScalar
            "timestamp" (Val.str timestamp)).setScalar
            "source" (Val.str source)).setScalar "plugin" (Val.str plugin))

/-- One step of pandas `unique()` in order of first appearance. -/
def addUnique (acc : List Val) (v : Val) : List Val :=
  if v ∈ acc then acc else acc ++ [v]

/-- `Series.unique()`: distinct values in order of first appearance. -/
def uniqueVals (l : List Val) : List Val := l.foldl addUnique []

/-- The column-name union `pd.concat` builds: first frame's columns, then
new labels in order of appearance. -/
def concatCols (dfs : List DF) : List String :=
  dfs.foldl (fun acc d => acc ++ d.cols.filter (fun c => c ∉ acc)) []

/-- Align one frame's rows to the concatenated column list (absent labels
become `NaN`, i.e. `Val.null`). -/
def alignRows (allCols : List String) (d : DF) : List (List Val) :=
  d.rows.map (fun r => allCols.map (fun c => rowGet d.cols r c))

/-- `pd.concat(x)`: `ValueError` on an empty list, otherwise row-wise
concatenation over the aligned column union. -/
def concatDFs : List DF → Except PyErr DF
  | [] => Except.error (PyErr.valueError "No objects to concatenate")
  | d :: ds =>
    let allCols := concatCols (d :: ds)
    Except.ok ⟨allCols, ((d :: ds).map (alignRows allCols)).flatten⟩

/-- `combined_df[combined_df[source] == u]`: the rows whose cell at the
source column index `i` equals `u`. -/
def filterBySource (df : DF) (i : Nat) (u : Val) : DF :=
  ⟨df.cols, df.rows.filter (fun r => r.getD i Val.null == u)⟩

/-- `AppShieldSourceStage.batch_source_split`: concatenate the plugin
frames, then split by distinct value of the `source` column; a single
distinct value returns the combined frame unsplit.  `IndexError` mirrors
`unique_sources[0]` on an empty uniques array; `KeyError` mirrors
`combined_df[source]` on a missing column. -/
def batch_source_split (x : List DF) (source : String) : Except PyErr (List (Val × DF)) :=
  match concatDFs x with
  | Except.error e => Except.error e
  | Except.ok combined =>
    match combined.cols.findIdx? (fun c => c == source) with
    | none => Except.error (PyErr.keyError source)
    | some i =>
      let uniques := uniqueVals (combined.rows.map (fun r => r.getD i Val.null))
      if uniques.length > 1 then
        Except.ok (uniques.map (fun u => (u, filterBySource combined i u)))
      else
        match uniques with
        | [] => Except.error (PyErr.indexError "index 0 is out of bounds for axis 0 with size 0")
        | u :: _ => Except.ok [(u, combined)]

/-- Per-file body of the `for filepath in x` loop of
`AppShieldSourceStage.files_to_dfs`: `none` when the plugin identifier
(basename up to the first `_`) is not in `plugins_include` (file skipped
silently); errors propagate to the loop. -/
def processFile (read : String → String → Except PyErr RecordSet)
    (cols_include cols_exclude plugins_include : List String)
    (encoding : String) (filepath : String) : Except PyErr (Option DF) :=
  let filepath_split := pySplit '/' filepath
  let plugin := ((pySplit '_' (filepath_split.getLastD "")).headD "")
  if plugin ∈ plugins_include then
    match load_df (read filepath) cols_exclude encoding with
    | Except.error e => Except.error e
    | Except.ok df =>
      match load_meta_cols filepath_split plugin (fill_interested_cols df cols_include) with
      | Except.error e => Except.error e
      | Except.ok df2 => Except.ok (some df2)
  else Except.ok none

/-- Outcome of the `files_to_dfs` loop: accepted frames in order, the
filepaths for which a `JSONDecodeError` was logged (`logger.error`), and a
fatal exception aborting the loop when some file raised anything else. -/
structure LoopOut where
  dfs : List DF
  logs : List String
  fatal : Option PyErr
deriving DecidableEq

/-- The `for filepath in x: try ... except JSONDecodeError` loop of
`files_to_dfs`: a `JSONDecodeError` logs the path and continues; any other
exception aborts the whole call. -/
def filesLoop (step : String → Except PyErr (Option DF)) : List String → LoopOut
  | [] => ⟨[], [], none⟩
  | p :: rest =>
    match step p with
    | Except.ok none => filesLoop step rest
    | Except.ok (some df) =>
      let r := filesLoop step rest
      ⟨df :: r.dfs, r.logs, r.fatal⟩
    | Except.error e =>
      if isJSONDecodeError e then
        let r := filesLoop step rest
        ⟨r.dfs, p :: r.logs, r.fatal⟩
      else ⟨[], [], some e⟩

/-- `AppShieldSourceStage.files_to_dfs`: run the per-file loop, then group
the accepted frames by `source`.  The second component is the list of
filepaths whose JSON decode failure was logged. -/
def files_to_dfs (read : String → String → Except PyErr RecordSet)
    (x : List String) (cols_include cols_exclude plugins_include : List String)
    (encoding : String) : Except PyErr (List (Val × DF)) × List String :=
  let r := filesLoop (processFile read cols_include cols_exclude plugins_include encoding) x
  match r.fatal with
  | some e => (Except.error e, r.logs)
  | none => (batch_source_split r.dfs "source", r.logs)

/-- The preallocation operator `_post_build_single` wires in after the
stage's own node: C++ or Python `MessageMeta`/`MultiMessage` variants, or
the raw-dataframe map. -/
inductive PreallocOp where
  | cppMeta | cppMulti | pyMeta | pyMulti | pyDf
deriving DecidableEq

/-- A graph node: the stage's own output node, or a preallocation node
appended after another node by `builder.make_edge`. -/
inductive Node where
  | base (id : String) : Node
  | prealloc (op : PreallocOp) (parent : Node) : Node
deriving DecidableEq

/-- The declared output type of the stage's single output port, as
classified by the `issubclass` dispatch of `_post_build_single`;
`other` carries the pretty-printed name of an unsupported type. -/
inductive OutType where
  | messageMeta | multiMessage | cudfDataFrame | pandasDataFrame
  | other (name : String)
deriving DecidableEq

/-- The `RuntimeError` message of `_post_build_single` for an unsupported
output type. -/
def preallocErrMsg (n : String) : String :=
  "Additional columns were requested to be inserted into the Dataframe, but the output type "
    ++ n ++ " is not a supported type"

/-- `PreallocatorMixin._post_build_single`: with a non-empty needed-columns
spec, append the preallocation node matching the declared output type (or
raise `RuntimeError` for an unsupported type); with an empty spec, return
the stage's own output node unchanged. -/
def post_build_single (useCpp : Bool) (needed : List (String × TypeId))
    (outType : OutType) (outNode : Node) : Except PyErr Node :=
  if needed.length > 0 then
    match outType with
    | OutType.messageMeta =>
      Except.ok (Node.prealloc (if useCpp then PreallocOp.cppMeta else PreallocOp.pyMeta) outNode)
    | OutType.multiMessage =>
      Except.ok (Node.prealloc (if useCpp then PreallocOp.cppMulti else PreallocOp.pyMulti) outNode)
    | OutType.cudfDataFrame => Except.ok (Node.prealloc PreallocOp.pyDf outNode)
    | OutType.pandasDataFrame => Except.ok (Node.prealloc PreallocOp.pyDf outNode)
    | OutType.other n => Except.error (PyErr.runtimeError (preallocErrMsg n))
  else Except.ok outNode

/-! ### Frame-operation lemmas -/

/-- A label absent from the column list is never found. -/
theorem findIdx?_label_none {c : String} {l : List String} (h : c ∉ l) :
    l.findIdx? (fun c2 => c2 == c) = none := by
  rw [List.findIdx?_eq_none_iff]
  intro x hx
  simp only [beq_eq_false_iff_ne]
  exact fun e => h (e ▸ hx)

/-- Zipping rows with a broadcast scalar appends it to every row. -/
theorem zipWith_append_replicate (v : Val) :
    ∀ (rows : List (List Val)),
      List.zipWith (fun r w => r ++ [w]) rows (List.replicate rows.length v)
        = rows.map (fun r => r ++ [v])
  | [] => rfl
  | r :: rows => by
    simp only [List.length_cons, List.replicate_succ, List.zipWith_cons_cons, List.map_cons]
    rw [zipWith_append_replicate v rows]

/-- Broadcasting a scalar into a fresh column appends it on the right. -/
theorem setScalar_fresh (df : DF) (c : String) (v : Val) (h : c ∉ df.cols) :
    df.setScalar c v = ⟨df.cols ++ [c], df.rows.map (fun r => r ++ [v])⟩ := by
  unfold DF.setScalar DF.setCol
  rw [findIdx?_label_none h]
  simp [DF.nrows, zipWith_append_replicate]

/-- Column assignment makes the assigned label present. -/
theorem mem_setCol_self (df : DF) (c : String) (vals : List Val) :
    c ∈ (df.setCol c vals).cols := by
  unfold DF.setCol
  cases h : df.cols.findIdx? (fun c2 => c2 == c) with
  | none => simp
  | some i =>
    simp only
    by_contra hc
    rw [findIdx?_label_none hc] at h
    cases h

/-- Column assignment never removes a label. -/
theorem mem_setCol_mono (df : DF) (a c : String) (vals : List Val) (h : a ∈ df.cols) :
    a ∈ (df.setCol c vals).cols := by
  unfold DF.setCol
  cases df.cols.findIdx? (fun c2 => c2 == c) with
  | none => simp [h]
  | some i => simpa using h

/-- Broadcasting a scalar preserves the row count. -/
theorem nrows_setCol_replicate (df : DF) (c : String) (v : Val) :
    (df.setCol c (List.replicate df.nrows v)).nrows = df.nrows := by
  unfold DF.setCol
  cases df.cols.findIdx? (fun c2 => c2 == c) <;>
    simp [DF.nrows]

/-- Reading the head column of a row. -/
theorem rowGet_cons_self (c : String) (cs : List String) (v : Val) (vs : List Val) :
    rowGet (c :: cs) (v :: vs) c = v := by
  simp [rowGet, List.zip_cons_cons, List.find?_cons_of_pos]

/-- Reading past a non-matching head column. -/
theorem rowGet_cons_ne (c c' : String) (cs : List String) (v : Val) (vs : List Val)
    (h : c ≠ c') : rowGet (c :: cs) (v :: vs) c' = rowGet cs vs c' := by
  have hb : ((c, v).1 == c') = false := by simpa using h
  simp [rowGet, List.zip_cons_cons, List.find?_cons, hb]

/-- Projecting a wellformed row onto its own column list is the identity. -/
theorem selfProj : ∀ (cols : List String) (r : List Val), cols.Nodup →
    r.length = cols.length → cols.map (fun c => rowGet cols r c) = r
  | [], [], _, _ => rfl
  | [], _ :: _, _, h => by simp at h
  | _ :: _, [], _, h => by simp at h
  | c :: cs, v :: vs, hnd, hlen => by
    have hvs : vs.length = cs.length := by simpa using hlen
    have hcns : c ∉ cs := (List.nodup_cons.mp hnd).1
    have hnd' : cs.Nodup := (List.nodup_cons.mp hnd).2
    simp only [List.map_cons, rowGet_cons_self]
    congr 1
    have hcg : ∀ c' ∈ cs, rowGet (c :: cs) (v :: vs) c' = rowGet cs vs c' := by
      intro c' hc'
      exact rowGet_cons_ne c c' cs v vs (fun e => hcns (e ▸ hc'))
    rw [List.map_congr_left hcg]
    exact selfProj cs vs hnd' hvs

/-- Appending columns does not change reads of present columns. -/
theorem rowGet_append_left : ∀ (cols : List String) (r : List Val) (es : List String)
    (ext : List Val) (c : String), c ∈ cols → r.length = cols.length →
    rowGet (cols ++ es) (r ++ ext) c = rowGet cols r c
  | [], _, _, _, _, hc, _ => absurd hc (List.not_mem_nil _)
  | _ :: _, [], _, _, _, _, hlen => by simp at hlen
  | c0 :: cs, v0 :: vs, es, ext, c, hc, hlen => by
    rcases eq_or_ne c0 c with rfl | hne
    · simpa using (rowGet_cons_self c0 (cs ++ es) v0 (vs ++ ext)).trans
        (rowGet_cons_self c0 cs v0 vs).symm
    · have hc' : c ∈ cs := by
        rcases List.mem_cons.mp hc with h | h
        · exact absurd h.symm hne
        · exact h
      have ih := rowGet_append_left cs vs es ext c hc' (by simpa using hlen)
      calc rowGet ((c0 :: cs) ++ es) ((v0 :: vs) ++ ext) c
          = rowGet (cs ++ es) (vs ++ ext) c := rowGet_cons_ne c0 c _ v0 _ hne
        _ = rowGet cs vs c := ih
        _ = rowGet (c0 :: cs) (v0 :: vs) c := (rowGet_cons_ne c0 c cs v0 vs hne).symm

/-- Reading an absent column falls through to the appended columns. -/
theorem rowGet_append_not_mem : ∀ (cols : List String) (r : List Val) (es : List String)
    (ext : List Val) (c : String), c ∉ cols → r.length = cols.length →
    rowGet (cols ++ es) (r ++ ext) c = rowGet es ext c
  | [], [], _, _, _, _, _ => rfl
  | [], _ :: _, _, _, _, _, hlen => by simp at hlen
  | _ :: _, [], _, _, _, _, hlen => by simp at hlen
  | c0 :: cs, v0 :: vs, es, ext, c, hc, hlen => by
    have hne : c0 ≠ c := fun e => hc (by simp [e])
    have := rowGet_append_not_mem cs vs es ext c
      (fun h => hc (List.mem_cons_of_mem _ h)) (by simpa using hlen)
    calc rowGet ((c0 :: cs) ++ es) ((v0 :: vs) ++ ext) c
        = rowGet (cs ++ es) (vs ++ ext) c := rowGet_cons_ne c0 c _ v0 _ hne
      _ = rowGet es ext c := this

/-- Reading a column out of the parallel value list built by `map`. -/
theorem rowGet_map_self (f : String → Val) : ∀ (es : List String) (c : String), c ∈ es →
    rowGet es (es.map f) c = f c
  | [], c, hc => absurd hc (List.not_mem_nil c)
  | e :: es, c, hc => by
    rcases eq_or_ne e c with rfl | hne
    · simpa using rowGet_cons_self e (es) (f e) (es.map f)
    · have hc' : c ∈ es := by
        rcases List.mem_cons.mp hc with h | h
        · exact absurd h.symm hne
        · exact h
      rw [List.map_cons, rowGet_cons_ne e c es (f e) (es.map f) hne]
      exact rowGet_map_self f es c hc'

/-! ### `_preallocate_df` lemmas -/

/-- Each loop iteration of `_preallocate_df` broadcasts the fill value. -/
theorem preallocStep_eq (needed : List (String × TypeId)) (n : Nat) (d : DF) (c : String)
    (h : d.nrows = n) :
    preallocStep needed n d c
      = d.setCol c (List.replicate d.nrows (preallocFill needed c)) := by
  unfold preallocStep preallocFill
  by_cases ht : typeOf needed c ≠ TypeId.string
  · simp [ht, h]
  · simp [ht]

/-- Folding the preallocation loop over fresh pairwise-distinct labels
appends one fill column per label, in order. -/
theorem foldl_preallocStep (needed : List (String × TypeId)) (n : Nat) :
    ∀ (cs : List String) (df : DF), df.nrows = n → cs.Nodup →
      (∀ c ∈ cs, c ∉ df.cols) →
      cs.foldl (preallocStep needed n) df
        = ⟨df.cols ++ cs, df.rows.map (fun r => r ++ cs.map (preallocFill needed))⟩
  | [], df, _, _, _ => by cases df; simp
  | c :: cs, df, hn, hnd, hfresh => by
    have hstep : preallocStep needed n df c
        = ⟨df.cols ++ [c], df.rows.map (fun r => r ++ [preallocFill needed c])⟩ := by
      rw [preallocStep_eq needed n df c hn]
      have := setScalar_fresh df c (preallocFill needed c) (hfresh c (List.mem_cons_self c cs))
      simpa [DF.setScalar] using this
    have hn1 : (DF.mk (df.cols ++ [c])
        (df.rows.map (fun r => r ++ [preallocFill needed c]))).nrows = n := by
      simpa [DF.nrows] using hn
    have hfresh1 : ∀ c' ∈ cs, c' ∉ df.cols ++ [c] := by
      intro c' hc'
      simp only [List.mem_append, List.mem_singleton]
      rintro (h | rfl)
      · exact hfresh c' (List.mem_cons_of_mem c hc') h
      · exact (List.nodup_cons.mp hnd).1 hc'
    have ih := foldl_preallocStep needed n cs _ hn1 (List.nodup_cons.mp hnd).2 hfresh1
    simp only [List.foldl_cons, hstep, ih, List.map_map]
    refine congrArg₂ DF.mk (by simp) ?_
    simp [Function.comp]

/-- Closed form of `_preallocate_df`: the missing needed columns are
appended on the right with their fill values, rows extended accordingly. -/
theorem preallocate_df_closed (needed : List (String × TypeId)) (df : DF)
    (hnd : (neededKeys needed).Nodup) :
    preallocate_df needed df
      = ⟨df.cols ++ (neededKeys needed).filter (fun c => c ∉ df.cols),
         df.rows.map (fun r =>
           r ++ ((neededKeys needed).filter (fun c => c ∉ df.cols)).map
             (preallocFill needed))⟩ := by
  unfold preallocate_df
  by_cases h : ((neededKeys needed).filter (fun c => c ∉ df.cols)).length > 0
  · rw [if_pos h]
    exact foldl_preallocStep needed df.nrows _ df rfl (hnd.filter _)
      (fun c hc => by simpa using (List.mem_filter.mp hc).2)
  · rw [if_neg h]
    have hnil : (neededKeys needed).filter (fun c => c ∉ df.cols) = [] :=
      List.length_eq_zero.mp (Nat.eq_zero_of_not_pos h)
    rw [hnil]
    cases df; simp

/-- C1: applying `_preallocate_df` with a non-empty spec yields a frame in
which every spec column exists, columns missing from the input are appended
filled with the type-appropriate zero (numeric dtypes) or the empty string
(the string dtype), and every column already present keeps its values. -/
theorem preallocate_df_spec (needed : List (String × TypeId)) (df : DF)
    (_hne : needed ≠ []) (hnd : (neededKeys needed).Nodup) (hwf : df.Wf) :
    (∀ c ∈ neededKeys needed, c ∈ (preallocate_df needed df).cols)
    ∧ (preallocate_df needed df).cols
        = df.cols ++ (neededKeys needed).filter (fun c => c ∉ df.cols)
    ∧ (∀ c ∈ df.cols, (preallocate_df needed df).getCol c = df.getCol c)
    ∧ (∀ c ∈ (neededKeys needed).filter (fun c => c ∉ df.cols),
        (preallocate_df needed df).getCol c
          = some (List.replicate df.nrows (preallocFill needed c)))
    ∧ (∀ c, typeOf needed c = TypeId.string → preallocFill needed c = Val.str "")
    ∧ (∀ c, typeOf needed c ≠ TypeId.string
        → preallocFill needed c = zeroVal (typeOf needed c)) := by
  have hclosed := preallocate_df_closed needed df hnd
  refine ⟨?_, ?_, ?_, ?_, ?_, ?_⟩
  · intro c hc
    rw [hclosed]
    by_cases hcc : c ∈ df.cols
    · exact List.mem_append_left _ hcc
    · exact List.mem_append_right _ (List.mem_filter.mpr ⟨hc, by simpa using hcc⟩)
  · rw [hclosed]
  · intro c hc
    rw [hclosed]
    unfold DF.getCol
    rw [if_pos (List.mem_append_left _ hc), if_pos hc]
    refine congrArg some ?_
    rw [List.map_map]
    refine List.map_congr_left (fun r hr => ?_)
    exact rowGet_append_left df.cols r _ _ c hc (hwf.1 r hr)
  · intro c hc
    have hcn : c ∉ df.cols := by simpa using (List.mem_filter.mp hc).2
    rw [hclosed]
    unfold DF.getCol
    rw [if_pos (List.mem_append_right _ hc)]
    refine congrArg some ?_
    rw [List.map_map]
    simp only [DF.nrows]
    rw [← List.map_const' df.rows (preallocFill needed c)]
    refine List.map_congr_left (fun r hr => ?_)
    show rowGet (df.cols ++ (neededKeys needed).filter (fun c => c ∉ df.cols))
        (r ++ ((neededKeys needed).filter (fun c => c ∉ df.cols)).map
          (preallocFill needed)) c = preallocFill needed c
    rw [rowGet_append_not_mem df.cols r _ _ c hcn (hwf.1 r hr)]
    exact rowGet_map_self (preallocFill needed) _ c hc
  · intro c hcs
    simp [preallocFill, hcs]
  · intro c hcs
    simp [preallocFill, hcs]

/-- Wellformedness of a concrete frame is decidable. -/
instance (df : DF) : Decidable df.Wf :=
  inferInstanceAs (Decidable ((∀ r ∈ df.rows, r.length = df.cols.length) ∧ df.cols.Nodup))

/-- Concrete required-column spec used to witness C1. -/
def c1Needed : List (String × TypeId) := [("n", TypeId.int64), ("s", TypeId.string)]

/-- Concrete input frame used to witness C1. -/
def c1Frame : DF := ⟨["a"], [[Val.int 5]]⟩

/-- Witness for C1 at a concrete spec and frame. -/
theorem preallocate_df_spec_witness :
    c1Needed ≠ [] ∧ (neededKeys c1Needed).Nodup ∧ c1Frame.Wf
    ∧ ((∀ c ∈ neededKeys c1Needed, c ∈ (preallocate_df c1Needed c1Frame).cols)
      ∧ (preallocate_df c1Needed c1Frame).cols
          = c1Frame.cols ++ (neededKeys c1Needed).filter (fun c => c ∉ c1Frame.cols)
      ∧ (∀ c ∈ c1Frame.cols,
          (preallocate_df c1Needed c1Frame).getCol c = c1Frame.getCol c)
      ∧ (∀ c ∈ (neededKeys c1Needed).filter (fun c => c ∉ c1Frame.cols),
          (preallocate_df c1Needed c1Frame).getCol c
            = some (List.replicate c1Frame.nrows (preallocFill c1Needed c)))
      ∧ (∀ c, typeOf c1Needed c = TypeId.string → preallocFill c1Needed c = Val.str "")
      ∧ (∀ c, typeOf c1Needed c ≠ TypeId.string
          → preallocFill c1Needed c = zeroVal (typeOf c1Needed c))) :=
  ⟨by decide, by decide, by decide,
    preallocate_df_spec c1Needed c1Frame (by decide) (by decide) (by decide)⟩

/-- A label already assigned stays present under one loop iteration. -/
theorem mem_preallocStep_self (needed : List (String × TypeId)) (n : Nat) (d : DF)
    (c : String) : c ∈ (preallocStep needed n d c).cols := by
  unfold preallocStep
  split
  · exact mem_setCol_self d c _
  · exact mem_setCol_self d c _

/-- Loop iterations never remove labels. -/
theorem mem_preallocStep_mono (needed : List (String × TypeId)) (n : Nat) (d : DF)
    (a c : String) (h : a ∈ d.cols) : a ∈ (preallocStep needed n d c).cols := by
  unfold preallocStep
  split
  · exact mem_setCol_mono d a c _ h
  · exact mem_setCol_mono d a c _ h

/-- Every looped-over label, and every pre-existing label, is present after
the preallocation loop. -/
theorem foldl_preallocStep_mem (needed : List (String × TypeId)) (n : Nat) :
    ∀ (cs : List String) (df : DF) (a : String), a ∈ cs ∨ a ∈ df.cols →
      a ∈ (cs.foldl (preallocStep needed n) df).cols
  | [], df, a, h => by
    rcases h with h | h
    · exact absurd h (List.not_mem_nil a)
    · simpa using h
  | c :: cs, df, a, h => by
    simp only [List.foldl_cons]
    rcases h with h | h
    · rcases List.mem_cons.mp h with rfl | h'
      · exact foldl_preallocStep_mem needed n cs _ a
          (Or.inr (mem_preallocStep_self needed n df a))
      · exact foldl_preallocStep_mem needed n cs _ a (Or.inl h')
    · exact foldl_preallocStep_mem needed n cs _ a
        (Or.inr (mem_preallocStep_mono needed n df a c h))

/-- C2: `_preallocate_df` is idempotent — a second application with the same
spec finds no missing column and returns its input unchanged. -/
theorem preallocate_df_idempotent (needed : List (String × TypeId)) (df : DF) :
    preallocate_df needed (preallocate_df needed df) = preallocate_df needed df := by
  have hmem : ∀ c ∈ neededKeys needed, c ∈ (preallocate_df needed df).cols := by
    intro c hc
    unfold preallocate_df
    by_cases h : ((neededKeys needed).filter (fun c => c ∉ df.cols)).length > 0
    · rw [if_pos h]
      by_cases hcc : c ∈ df.cols
      · exact foldl_preallocStep_mem needed df.nrows _ df c (Or.inr hcc)
      · exact foldl_preallocStep_mem needed df.nrows _ df c
          (Or.inl (List.mem_filter.mpr ⟨hc, by simpa using hcc⟩))
    · rw [if_neg h]
      have hnil : (neededKeys needed).filter (fun c => c ∉ df.cols) = [] :=
        List.length_eq_zero.mp (Nat.eq_zero_of_not_pos h)
      have := List.filter_eq_nil_iff.mp hnil c hc
      simpa using this
  have hnil2 : (neededKeys needed).filter
      (fun c => c ∉ (preallocate_df needed df).cols) = [] :=
    List.filter_eq_nil_iff.mpr (fun c hc => by simpa using hmem c hc)
  set df2 := preallocate_df needed df with hdf2
  unfold preallocate_df
  simp only [hnil2]
  simp

/-! ### `_post_build_single` claims -/

/-- C7: with a non-empty required-column spec and an output type that is
none of the supported shapes, `_post_build_single` raises a `RuntimeError`
whose message names the offending type, instead of silently skipping the
completion step. -/
theorem post_build_single_rejects_unknown (useCpp : Bool)
    (needed : List (String × TypeId)) (n : String) (outNode : Node)
    (hne : needed ≠ []) :
    post_build_single useCpp needed (OutType.other n) outNode
      = Except.error (PyErr.runtimeError (preallocErrMsg n))
    ∧ preallocErrMsg n
      = "Additional columns were requested to be inserted into the Dataframe, but the output type "
        ++ n ++ " is not a supported type" := by
  constructor
  · unfold post_build_single
    rw [if_pos (by simpa [List.length_pos] using hne)]
  · rfl

/-- Witness for C7 at a concrete stage configuration. -/
theorem post_build_single_rejects_unknown_witness :
    ([("a", TypeId.int64)] : List (String × TypeId)) ≠ []
    ∧ (post_build_single true [("a", TypeId.int64)] (OutType.other "ControlMessage")
          (Node.base "src")
        = Except.error (PyErr.runtimeError (preallocErrMsg "ControlMessage"))
      ∧ preallocErrMsg "ControlMessage"
        = "Additional columns were requested to be inserted into the Dataframe, but the output type "
          ++ "ControlMessage" ++ " is not a supported type") :=
  ⟨by decide,
    post_build_single_rejects_unknown true [("a", TypeId.int64)] "ControlMessage"
      (Node.base "src") (by decide)⟩

/-- C9: with an empty required-column spec, `_post_build_single` inserts no
node and returns the stage's own output node unchanged, whatever the output
type. -/
theorem post_build_single_empty_noop (useCpp : Bool) (outType : OutType) (outNode : Node) :
    post_build_single useCpp [] outType outNode = Except.ok outNode := by
  unfold post_build_single
  simp

/-! ### `load_df` encoding-fallback claims -/

/-- C5 (amended): when one open-and-parse attempt with the configured
encoding fails with a `JSONDecodeError`, `load_df` re-raises the original
error whenever the lowercased encoding starts with `utf`, and otherwise
retries exactly once with `utf-8`; successes pass through and non-JSON
errors propagate without a retry. -/
theorem load_df_fallback_policy (read : String → Except PyErr RecordSet)
    (ce : List String) (enc : String) :
    (∀ df, loadAttempt read ce enc = Except.ok df → load_df read ce enc = Except.ok df)
    ∧ (∀ m, loadAttempt read ce enc = Except.error (PyErr.jsonDecodeError m) →
        load_df read ce enc
          = if utfCheck enc then Except.error (PyErr.jsonDecodeError m)
            else loadAttempt read ce "utf-8")
    ∧ (∀ e, loadAttempt read ce enc = Except.error e → isJSONDecodeError e = false →
        load_df read ce enc = Except.error e) := by
  refine ⟨?_, ?_, ?_⟩
  · intro df h
    unfold load_df
    rw [h]
  · intro m h
    unfold load_df
    rw [h]
    simp [isJSONDecodeError]
  · intro e h hj
    unfold load_df
    rw [h]
    simp [hj]

/-- Concrete file model for the C5 witness and counterexample: decodable
and parseable only under `utf-8`. -/
def c5Read : String → Except PyErr RecordSet := fun enc =>
  if enc = "utf-8" then Except.ok ⟨["a"], [[Val.int 1]]⟩
  else Except.error (PyErr.jsonDecodeError "Expecting value")

/-- Concrete file model whose non-`utf-8` failure is a `UnicodeDecodeError`
(the exception `open`/`read` raises for an undecodable byte sequence). -/
def c5ReadU : String → Except PyErr RecordSet := fun enc =>
  if enc = "utf-8" then Except.ok ⟨["a"], [[Val.int 1]]⟩
  else Except.error (PyErr.unicodeDecodeError "invalid start byte")

/-- Witness for C5 (amended) at a `latin1` primary encoding. -/
theorem load_df_fallback_policy_witness :
    loadAttempt c5Read ["SHA256"] "latin1"
      = Except.error (PyErr.jsonDecodeError "Expecting value")
    ∧ load_df c5Read ["SHA256"] "latin1" = loadAttempt c5Read ["SHA256"] "utf-8" := by
  have h := (load_df_fallback_policy c5Read ["SHA256"] "latin1").2.1
    "Expecting value" rfl
  rw [show utfCheck "latin1" = false from by decide] at h
  exact ⟨rfl, by simpa using h⟩

/-- Counterexample to C5 as stated: with primary encoding `utf-16`
(not the universal `utf-8`) the decode failure is re-raised with no retry,
because the code tests `encoding.lower().startswith('utf')` rather than
equality with `utf-8`; and a failure that is not a `JSONDecodeError`
(a `UnicodeDecodeError` under an `ascii` primary) is also never retried. -/
theorem load_df_fallback_counterexample :
    loadAttempt c5Read ["SHA256"] "utf-16"
      = Except.error (PyErr.jsonDecodeError "Expecting value")
    ∧ "utf-16" ≠ "utf-8"
    ∧ loadAttempt c5Read ["SHA256"] "utf-8" = Except.ok ⟨["a"], [[Val.int 1]]⟩
    ∧ load_df c5Read ["SHA256"] "utf-16"
      = Except.error (PyErr.jsonDecodeError "Expecting value")
    ∧ loadAttempt c5ReadU ["SHA256"] "ascii"
      = Except.error (PyErr.unicodeDecodeError "invalid start byte")
    ∧ "ascii" ≠ "utf-8"
    ∧ loadAttempt c5ReadU ["SHA256"] "utf-8" = Except.ok ⟨["a"], [[Val.int 1]]⟩
    ∧ load_df c5ReadU ["SHA256"] "ascii"
      = Except.error (PyErr.unicodeDecodeError "invalid start byte") :=
  ⟨rfl, by decide, rfl, rfl, rfl, by decide, rfl, rfl⟩

/-! ### `load_meta_cols` metadata-derivation claim -/

/-- C4: on the `/`-split of `/data/hostA/snap-42/proc_2023-01-02.json`,
`load_meta_cols` derives `source = "hostA"` (third-from-last segment),
`snapshot_id = 42` (integer after splitting the second-from-last segment on
`-`) and `timestamp = "2023-01-02"` (timestamp-pattern match on the last
segment), and broadcasts the four scalars (plugin included) as new columns
to every row. -/
theorem load_meta_cols_derivation (df : DF)
    (h1 : "snapshot_id" ∉ df.cols) (h2 : "timestamp" ∉ df.cols)
    (h3 : "source" ∉ df.cols) (h4 : "plugin" ∉ df.cols) :
    load_meta_cols (pySplit '/' "/data/hostA/snap-42/proc_2023-01-02.json") "proc" df
      = Except.ok ⟨df.cols ++ ["snapshot_id", "timestamp", "source", "plugin"],
          df.rows.map (fun r =>
            r ++ [Val.int 42, Val.str "2023-01-02", Val.str "hostA", Val.str "proc"])⟩ := by
  have hred : load_meta_cols (pySplit '/' "/data/hostA/snap-42/proc_2023-01-02.json")
      "proc" df
      = Except.ok ((((df.setScalar "snapshot_id" (Val.int 42)).setScalar
          "timestamp" (Val.str "2023-01-02")).setScalar
          "source" (Val.str "hostA")).setScalar "plugin" (Val.str "proc")) := rfl
  rw [hred]
  rw [setScalar_fresh df "snapshot_id" (Val.int 42) h1]
  rw [setScalar_fresh _ "timestamp" (Val.str "2023-01-02")
    (by simp only [List.mem_append, List.mem_singleton]; rintro (h | h)
        exacts [h2 h, absurd h (by decide)])]
  rw [setScalar_fresh _ "source" (Val.str "hostA")
    (by simp only [List.mem_append, List.mem_singleton]; rintro ((h | h) | h)
        exacts [h3 h, absurd h (by decide), absurd h (by decide)])]
  rw [setScalar_fresh _ "plugin" (Val.str "proc")
    (by simp only [List.mem_append, List.mem_singleton]; rintro (((h | h) | h) | h)
        exacts [h4 h, absurd h (by decide), absurd h (by decide), absurd h (by decide)])]
  refine congrArg Except.ok (congrArg₂ DF.mk (by simp) ?_)
  simp [List.map_map, Function.comp]

/-- Concrete input frame used to witness C4. -/
def c4Frame : DF := ⟨["a"], [[Val.int 1], [Val.int 2]]⟩

/-- Witness for C4 at a concrete two-row frame. -/
theorem load_meta_cols_derivation_witness :
    "snapshot_id" ∉ c4Frame.cols ∧ "timestamp" ∉ c4Frame.cols
    ∧ "source" ∉ c4Frame.cols ∧ "plugin" ∉ c4Frame.cols
    ∧ load_meta_cols (pySplit '/' "/data/hostA/snap-42/proc_2023-01-02.json") "proc" c4Frame
      = Except.ok ⟨["a", "snapshot_id", "timestamp", "source", "plugin"],
          [[Val.int 1, Val.int 42, Val.str "2023-01-02", Val.str "hostA", Val.str "proc"],
           [Val.int 2, Val.int 42, Val.str "2023-01-02", Val.str "hostA", Val.str "proc"]]⟩ :=
  ⟨by decide, by decide, by decide, by decide,
    (load_meta_cols_derivation c4Frame (by decide) (by decide) (by decide)
      (by decide)).trans (by rfl)⟩

/-! ### `read_file_to_df` claims -/

/-- A successful `pd.DataFrame` construction carries exactly the requested
columns. -/
theorem pdDataFrame_ok_cols {cols : List String} {data : List (List Val)} {df : DF}
    (h : pdDataFrame cols data = Except.ok df) : df.cols = cols := by
  cases data with
  | nil =>
    simp only [pdDataFrame] at h
    cases h
    rfl
  | cons r rs =>
    simp only [pdDataFrame] at h
    split at h
    · cases h
      rfl
    · cases h

/-- C8 (amended): the happy path of `read_file_to_df` builds from exactly
the titles not in the exclude list and returns that frame unchanged; only
when that restricted build raises `ValueError` does it rebuild from the full
`titles` and drop the excluded columns, and both paths yield the same column
set (`titles` minus the exclude list, in title order). -/
theorem read_file_to_df_paths (rs : RecordSet) (E : List String) :
    (∀ df, pdDataFrame (rs.titles.filter (fun c => c ∉ E)) rs.data = Except.ok df →
      read_file_to_df rs E = Except.ok df
      ∧ df.cols = rs.titles.filter (fun c => c ∉ E))
    ∧ (∀ m df, pdDataFrame (rs.titles.filter (fun c => c ∉ E)) rs.data
          = Except.error (PyErr.valueError m) →
        pdDataFrame rs.titles rs.data = Except.ok df →
        read_file_to_df rs E
          = Except.ok (df.dropCols (df.cols.filter
              (fun c => c ∉ rs.titles.filter (fun c => c ∉ E))))
        ∧ (df.dropCols (df.cols.filter
            (fun c => c ∉ rs.titles.filter (fun c => c ∉ E)))).cols
          = rs.titles.filter (fun c => c ∉ E)) := by
  constructor
  · intro df h
    refine ⟨?_, pdDataFrame_ok_cols h⟩
    simp only [read_file_to_df, h]
  · intro m df h1 h2
    constructor
    · simp only [read_file_to_df, h1, h2]
    · have hcols : df.cols = rs.titles := pdDataFrame_ok_cols h2
      have hsel : (df.dropCols (df.cols.filter
          (fun c => c ∉ rs.titles.filter (fun c => c ∉ E)))).cols
          = df.cols.filter (fun c =>
              c ∉ df.cols.filter (fun c => c ∉ rs.titles.filter (fun c => c ∉ E))) := rfl
      rw [hsel, hcols]
      refine List.filter_congr (fun c hc => ?_)
      simp only [decide_eq_decide, List.mem_filter, decide_eq_true_eq, hc, true_and]
      tauto

/-- Record set for which the restricted build succeeds (no excluded column
in the file). -/
def c8HappyRS : RecordSet := ⟨["a"], [[Val.int 1]]⟩

/-- Record set for which the restricted build fails (the excluded column is
present, so the data is wider than the restricted column list). -/
def c8FallbackRS : RecordSet := ⟨["a", "SHA256"], [[Val.int 1, Val.int 2]]⟩

/-- Full-titles frame pandas builds in the fallback path for
`c8FallbackRS`. -/
def c8Full : DF := ⟨["a", "SHA256"], [[Val.int 1, Val.int 2]]⟩

/-- Witness for C8 (amended): both the happy path and the fallback path at
concrete record sets. -/
theorem read_file_to_df_paths_witness :
    (read_file_to_df c8HappyRS ["SHA256"] = Except.ok ⟨["a"], [[Val.int 1]]⟩
      ∧ (DF.mk ["a"] [[Val.int 1]]).cols
          = c8HappyRS.titles.filter (fun c => c ∉ ["SHA256"]))
    ∧ (read_file_to_df c8FallbackRS ["SHA256"]
        = Except.ok (c8Full.dropCols (c8Full.cols.filter
            (fun c => c ∉ c8FallbackRS.titles.filter (fun c => c ∉ ["SHA256"]))))
      ∧ (c8Full.dropCols (c8Full.cols.filter
          (fun c => c ∉ c8FallbackRS.titles.filter (fun c => c ∉ ["SHA256"])))).cols
        = c8FallbackRS.titles.filter (fun c => c ∉ ["SHA256"])) :=
  ⟨(read_file_to_df_paths c8HappyRS ["SHA256"]).1 ⟨["a"], [[Val.int 1]]⟩ rfl,
   (read_file_to_df_paths c8FallbackRS ["SHA256"]).2
     "columns passed, passed data had different width" c8Full rfl rfl⟩

/-- Counterexample to C8 as stated: the first attempt restricts the columns
by the exclude list, not by intersection with the include list.  With
titles `["a", "b"]`, default exclude list `["SHA256"]` and include list
`["a"]`, the claimed happy-path column set would be `["a"]`, but
`read_file_to_df` (which never sees the include list) succeeds on its first
attempt with columns `["a", "b"]`. -/
theorem read_file_to_df_counterexample :
    read_file_to_df ⟨["a", "b"], [[Val.int 1, Val.int 2]]⟩ ["SHA256"]
      = Except.ok ⟨["a", "b"], [[Val.int 1, Val.int 2]]⟩
    ∧ ["a", "b"] ≠ ["a"] := by
  exact ⟨rfl, by decide⟩

/-! ### `batch_source_split` lemmas -/

/-- Membership in the running `unique()` accumulator. -/
theorem mem_foldl_addUnique : ∀ (l acc : List Val) (x : Val),
    x ∈ l.foldl addUnique acc ↔ x ∈ acc ∨ x ∈ l
  | [], acc, x => by simp
  | v :: l, acc, x => by
    rw [List.foldl_cons, mem_foldl_addUnique l (addUnique acc v) x]
    unfold addUnique
    by_cases hv : v ∈ acc
    · rw [if_pos hv]
      constructor
      · rintro (h | h)
        exacts [Or.inl h, Or.inr (List.mem_cons_of_mem v h)]
      · rintro (h | h)
        · exact Or.inl h
        · rcases List.mem_cons.mp h with rfl | h
          exacts [Or.inl hv, Or.inr h]
    · rw [if_neg hv]
      simp only [List.mem_append, List.mem_singleton, List.mem_cons]
      tauto

/-- The running `unique()` accumulator stays duplicate-free. -/
theorem nodup_foldl_addUnique : ∀ (l acc : List Val), acc.Nodup →
    (l.foldl addUnique acc).Nodup
  | [], _, h => h
  | v :: l, acc, h => by
    rw [List.foldl_cons]
    refine nodup_foldl_addUnique l (addUnique acc v) ?_
    unfold addUnique
    by_cases hv : v ∈ acc
    · rwa [if_pos hv]
    · rw [if_neg hv]
      simp [List.nodup_append, h, hv]

/-- `unique()` has the same members as its input series. -/
theorem mem_uniqueVals (l : List Val) (x : Val) : x ∈ uniqueVals l ↔ x ∈ l := by
  unfold uniqueVals
  rw [mem_foldl_addUnique]
  simp

/-- `unique()` is duplicate-free. -/
theorem nodup_uniqueVals (l : List Val) : (uniqueVals l).Nodup :=
  nodup_foldl_addUnique l [] List.nodup_nil

/-- The concat column union is stable once it already covers every frame. -/
theorem foldl_concatCols_stable (C : List String) :
    ∀ (ds : List DF), (∀ d ∈ ds, d.cols = C) →
      ds.foldl (fun acc d => acc ++ d.cols.filter (fun c => c ∉ acc)) C = C
  | [], _ => rfl
  | d :: ds, h => by
    rw [List.foldl_cons]
    have hd : d.cols = C := h d (List.mem_cons_self d ds)
    have hstep : C ++ d.cols.filter (fun c => c ∉ C) = C := by
      rw [hd]
      have hz : C.filter (fun c => c ∉ C) = [] :=
        List.filter_eq_nil_iff.mpr (fun c hc => by simp [hc])
      simp [hz]
    rw [hstep]
    exact foldl_concatCols_stable C ds (fun e he => h e (List.mem_cons_of_mem d he))

/-- The concat column union over frames sharing one schema is that schema. -/
theorem concatCols_uniform (C : List String) (d : DF) (ds : List DF)
    (h : ∀ e ∈ d :: ds, e.cols = C) : concatCols (d :: ds) = C := by
  unfold concatCols
  rw [List.foldl_cons]
  have hd : d.cols = C := h d (List.mem_cons_self d ds)
  have h0 : ([] : List String) ++ d.cols.filter (fun c => c ∉ ([] : List String)) = C := by
    rw [hd]
    simp
  rw [h0]
  exact foldl_concatCols_stable C ds (fun e he => h e (List.mem_cons_of_mem d he))

/-- Aligning a wellformed frame already in the target schema is the
identity on its rows. -/
theorem alignRows_self (C : List String) (d : DF) (hcols : d.cols = C) (hwf : d.Wf) :
    alignRows C d = d.rows := by
  unfold alignRows
  subst hcols
  have hrw : ∀ r ∈ d.rows, d.cols.map (fun c => rowGet d.cols r c) = id r :=
    fun r hr => selfProj d.cols r hwf.2 (hwf.1 r hr)
  rw [List.map_congr_left hrw, List.map_id]

/-- `pd.concat` over uniform wellformed frames stacks their rows under the
shared schema. -/
theorem concatDFs_uniform (C : List String) (T : List DF) (hne : T ≠ [])
    (hcols : ∀ d ∈ T, d.cols = C) (hwf : ∀ d ∈ T, d.Wf) :
    concatDFs T = Except.ok ⟨C, (T.map DF.rows).flatten⟩ := by
  cases T with
  | nil => exact absurd rfl hne
  | cons d ds =>
    simp only [concatDFs]
    rw [concatCols_uniform C d ds hcols]
    refine congrArg Except.ok (congrArg (DF.mk C) (congrArg List.flatten ?_))
    exact List.map_congr_left (fun e he => alignRows_self C e (hcols e he) (hwf e he))

/-- Count of a row in one source partition. -/
theorem count_filter_beq (i : Nat) (u : Val) (rows : List (List Val)) (r0 : List Val) :
    (rows.filter (fun r => r.getD i Val.null == u)).count r0
      = if r0.getD i Val.null = u then rows.count r0 else 0 := by
  by_cases h : r0.getD i Val.null = u
  · rw [if_pos h]
    exact List.count_filter (by simpa using h)
  · rw [if_neg h]
    rw [List.count_eq_zero]
    intro hmem
    exact h (by simpa using (List.mem_filter.mp hmem).2)

/-- Summing a matching count over a duplicate-free key list. -/
theorem sum_ite_count (v : Val) (K : Nat) :
    ∀ (us : List Val), us.Nodup → v ∈ us →
      (us.map (fun u => if v = u then K else 0)).sum = K
  | [], _, hv => absurd hv (List.not_mem_nil v)
  | u :: us, hnd, hv => by
    rw [List.map_cons, List.sum_cons]
    rcases eq_or_ne v u with rfl | hne
    · rw [if_pos rfl]
      have hnin : v ∉ us := (List.nodup_cons.mp hnd).1
      have hz : (us.map (fun u => if v = u then K else 0)).sum = 0 :=
        List.sum_eq_zero (fun x hx => by
          rcases List.mem_map.mp hx with ⟨u', hu', rfl⟩
          rw [if_neg (fun e => hnin (by rw [e]; exact hu'))])
      rw [hz]
      exact Nat.add_zero K
    · rw [if_neg hne, Nat.zero_add]
      have hv' : v ∈ us := by
        rcases List.mem_cons.mp hv with rfl | h
        · exact absurd rfl hne
        · exact h
      exact sum_ite_count v K us (List.nodup_cons.mp hnd).2 hv'

/-- Splitting rows by every key they carry preserves row multiplicities. -/
theorem partition_count (i : Nat) (rows : List (List Val)) (us : List Val)
    (hnd : us.Nodup) (hcomplete : ∀ r ∈ rows, r.getD i Val.null ∈ us) (r0 : List Val) :
    ((us.map (fun u => rows.filter (fun r => r.getD i Val.null == u))).flatten).count r0
      = rows.count r0 := by
  rw [List.count_flatten, List.map_map]
  by_cases hr : r0 ∈ rows
  · have hterm : ∀ u ∈ us,
        (List.count r0 ∘ fun u => rows.filter (fun r => r.getD i Val.null == u)) u
          = if r0.getD i Val.null = u then rows.count r0 else 0 :=
      fun u _ => count_filter_beq i u rows r0
    rw [List.map_congr_left hterm]
    exact sum_ite_count _ _ us hnd (hcomplete r0 hr)
  · have hz : rows.count r0 = 0 := List.count_eq_zero.mpr hr
    rw [hz]
    refine List.sum_eq_zero (fun x hx => ?_)
    rcases List.mem_map.mp hx with ⟨u, hu, rfl⟩
    show (rows.filter (fun r => r.getD i Val.null == u)).count r0 = 0
    rw [count_filter_beq i u rows r0, hz]
    simp

/-- Distinct source keys give pairwise-disjoint partitions. -/
theorem partition_disjoint (combined : DF) (i : Nat) (us : List Val) (hnd : us.Nodup) :
    List.Pairwise (fun p q => ∀ r, r ∈ p.2.rows → r ∉ q.2.rows)
      (us.map (fun u => (u, filterBySource combined i u))) := by
  refine List.Pairwise.map _ (fun a b hab => ?_) hnd
  intro r hra hrb
  have ha : (r.getD i Val.null == a) = true := by
    simpa using (List.mem_filter.mp hra).2
  have hb : (r.getD i Val.null == b) = true := by
    simpa using (List.mem_filter.mp hrb).2
  exact hab ((eq_of_beq ha).symm.trans (eq_of_beq hb))

/-- C3 (amended): on a non-empty batch of normalized tables that share the
normalized schema and carry at least one row in total, `batch_source_split`
returns a non-empty partition map whose partitions preserve every row's
multiplicity and are pairwise disjoint. -/
theorem batch_source_split_partition (T : List DF) (C : List String)
    (hne : T ≠ []) (hcols : ∀ d ∈ T, d.cols = C) (hwf : ∀ d ∈ T, d.Wf)
    (hsrc : "source" ∈ C) (hrow : ∃ d ∈ T, d.rows ≠ []) :
    ∃ m, batch_source_split T "source" = Except.ok m ∧ m ≠ []
      ∧ (∀ r, ((m.map (fun p => p.2.rows)).flatten).count r
          = ((T.map DF.rows).flatten).count r)
      ∧ List.Pairwise (fun p q => ∀ r, r ∈ p.2.rows → r ∉ q.2.rows) m := by
  have hconcat := concatDFs_uniform C T hne hcols hwf
  set rowsAll := (T.map DF.rows).flatten with hrowsAll
  obtain ⟨i, hi⟩ : ∃ i, C.findIdx? (fun c => c == "source") = some i := by
    cases h : C.findIdx? (fun c => c == "source") with
    | some i => exact ⟨i, rfl⟩
    | none =>
      have := List.findIdx?_eq_none_iff.mp h "source" hsrc
      simp at this
  set colVals := rowsAll.map (fun r => r.getD i Val.null) with hcolVals
  have hrne : rowsAll ≠ [] := by
    rcases hrow with ⟨d, hd, hdr⟩
    intro hnil
    exact hdr (List.flatten_eq_nil_iff.mp hnil d.rows (List.mem_map_of_mem DF.rows hd))
  obtain ⟨r0, hr0⟩ : ∃ r0, r0 ∈ rowsAll := List.exists_mem_of_ne_nil rowsAll hrne
  have hv0 : r0.getD i Val.null ∈ uniqueVals colVals :=
    (mem_uniqueVals _ _).mpr (List.mem_map_of_mem _ hr0)
  have hune : uniqueVals colVals ≠ [] := List.ne_nil_of_mem hv0
  have hcomplete : ∀ r ∈ rowsAll, r.getD i Val.null ∈ uniqueVals colVals :=
    fun r hr => (mem_uniqueVals _ _).mpr (List.mem_map_of_mem _ hr)
  have hnd : (uniqueVals colVals).Nodup := nodup_uniqueVals colVals
  have heval : batch_source_split T "source"
      = (if (uniqueVals colVals).length > 1 then
          Except.ok ((uniqueVals colVals).map
            (fun u => (u, filterBySource ⟨C, rowsAll⟩ i u)))
        else
          match uniqueVals colVals with
          | [] =>
            Except.error (PyErr.indexError "index 0 is out of bounds for axis 0 with size 0")
          | u :: _ => Except.ok [(u, ⟨C, rowsAll⟩)]) := by
    unfold batch_source_split
    rw [hconcat]
    dsimp only
    rw [hi]
  rcases hu : uniqueVals colVals with _ | ⟨u, us⟩
  · exact absurd hu hune
  · rw [hu] at heval
    cases us with
    | nil =>
      rw [if_neg (by simp)] at heval
      refine ⟨[(u, ⟨C, rowsAll⟩)], heval, by simp, ?_, by simp⟩
      intro r
      simp
    | cons u2 us2 =>
      rw [if_pos (by simp)] at heval
      refine ⟨_, heval, by simp, ?_, ?_⟩
      · intro r
        have hcount := partition_count i rowsAll (u :: u2 :: us2) (hu ▸ hnd)
          (fun r2 hr2 => hu ▸ hcomplete r2 hr2) r
        rw [List.map_map]
        have hfun : ((fun p => p.2.rows) ∘ fun u => ((u, filterBySource ⟨C, rowsAll⟩ i u) : Val × DF))
            = fun u => rowsAll.filter (fun r2 => r2.getD i Val.null == u) := rfl
        rw [hfun]
        exact hcount
      · exact partition_disjoint ⟨C, rowsAll⟩ i (u :: u2 :: us2) (hu ▸ hnd)

/-- Counterexample to C3 as stated: a non-empty batch whose normalized
tables all have zero rows makes the uniques array empty, so
`unique_sources[0]` raises `IndexError` instead of returning any
partition. -/
theorem batch_source_split_counterexample :
    batch_source_split [(⟨["source"], []⟩ : DF)] "source"
      = Except.error (PyErr.indexError "index 0 is out of bounds for axis 0 with size 0") := rfl

/-- Concrete two-source batch used to witness C3. -/
def c3T : List DF :=
  [⟨["source"], [[Val.str "h1"]]⟩, ⟨["source"], [[Val.str "h2"]]⟩]

/-- Witness for C3 (amended) at a concrete two-source batch. -/
theorem batch_source_split_partition_witness :
    c3T ≠ [] ∧ (∀ d ∈ c3T, d.cols = ["source"]) ∧ (∀ d ∈ c3T, d.Wf)
    ∧ "source" ∈ ["source"] ∧ (∃ d ∈ c3T, d.rows ≠ [])
    ∧ (∃ m, batch_source_split c3T "source" = Except.ok m ∧ m ≠ []
        ∧ (∀ r, ((m.map (fun p => p.2.rows)).flatten).count r
            = ((c3T.map DF.rows).flatten).count r)
        ∧ List.Pairwise (fun p q => ∀ r, r ∈ p.2.rows → r ∉ q.2.rows) m) :=
  ⟨by decide, by decide, by decide, by decide, by decide,
    batch_source_split_partition c3T ["source"] (by decide) (by decide) (by decide)
      (by decide) (by decide)⟩

/-! ### `files_to_dfs` claims -/

/-- Filesystem model for C6: three snapshot files of the `proc` plugin,
the second of which holds invalid JSON (its parse fails with
`JSONDecodeError` under every encoding, as invalid JSON does). -/
def c6Read : String → String → Except PyErr RecordSet := fun path _ =>
  if path = "/data/hostA/snap-1/proc_2023-01-01.json" then
    Except.ok ⟨["a"], [[Val.int 1]]⟩
  else if path = "/data/hostA/snap-2/proc_2023-01-02.json" then
    Except.error (PyErr.jsonDecodeError "Expecting value")
  else if path = "/data/hostA/snap-3/proc_2023-01-03.json" then
    Except.ok ⟨["a"], [[Val.int 3]]⟩
  else Except.error (PyErr.jsonDecodeError "no such file")

/-- C6: on a batch of three paths whose second file holds invalid JSON,
`files_to_dfs` returns (does not raise) exactly the records of files 1 and
3, and the error log contains exactly path 2. -/
theorem files_to_dfs_single_bad_file :
    files_to_dfs c6Read
      ["/data/hostA/snap-1/proc_2023-01-01.json",
       "/data/hostA/snap-2/proc_2023-01-02.json",
       "/data/hostA/snap-3/proc_2023-01-03.json"]
      ["a"] ["SHA256"] ["proc"] "latin1"
    = (Except.ok
        [(Val.str "hostA",
          ⟨["a", "snapshot_id", "timestamp", "source", "plugin"],
           [[Val.int 1, Val.int 1, Val.str "2023-01-01", Val.str "hostA", Val.str "proc"],
            [Val.int 3, Val.int 3, Val.str "2023-01-03", Val.str "hostA", Val.str "proc"]]⟩)],
       ["/data/hostA/snap-2/proc_2023-01-02.json"]) := rfl

/-- When every file is skipped (unrecognized plugin) or logged (JSON decode
failure), the loop accumulates no frame and no fatal error. -/
theorem filesLoop_all_skipped (step : String → Except PyErr (Option DF)) :
    ∀ (x : List String),
      (∀ p ∈ x, step p = Except.ok none
        ∨ ∃ m, step p = Except.error (PyErr.jsonDecodeError m)) →
      (filesLoop step x).dfs = [] ∧ (filesLoop step x).fatal = none
  | [], _ => ⟨rfl, rfl⟩
  | p :: rest, h => by
    have ih := filesLoop_all_skipped step rest
      (fun q hq => h q (List.mem_cons_of_mem p hq))
    rcases h p (List.mem_cons_self p rest) with hp | ⟨m, hp⟩
    · simp only [filesLoop, hp]
      exact ih
    · simp only [filesLoop, hp, isJSONDecodeError, if_true]
      exact ih

/-- C10: when no file in the batch yields a frame (every file has an
unrecognized plugin or malformed JSON), `files_to_dfs` raises
`pd.concat`'s `ValueError` on the empty frame list instead of returning an
empty mapping. -/
theorem files_to_dfs_all_skipped (read : String → String → Except PyErr RecordSet)
    (x : List String) (cols_include cols_exclude plugins_include : List String)
    (encoding : String)
    (h : ∀ p ∈ x,
      processFile read cols_include cols_exclude plugins_include encoding p
        = Except.ok none
      ∨ ∃ m, processFile read cols_include cols_exclude plugins_include encoding p
          = Except.error (PyErr.jsonDecodeError m)) :
    (files_to_dfs read x cols_include cols_exclude plugins_include encoding).1
      = Except.error (PyErr.valueError "No objects to concatenate") := by
  have hloop := filesLoop_all_skipped
    (processFile read cols_include cols_exclude plugins_include encoding) x h
  simp only [files_to_dfs, hloop.1, hloop.2]
  rfl

/-- Filesystem model for the C10 witness: every file fails to parse. -/
def c10Read : String → String → Except PyErr RecordSet := fun _ _ =>
  Except.error (PyErr.jsonDecodeError "Expecting value")

/-- Witness for C10: one unrecognized-plugin path plus one malformed-JSON
path yield no frame, and the batch-level call errors. -/
theorem files_to_dfs_all_skipped_witness :
    (∀ p ∈ ["/data/hostA/snap-1/unknown_2023-01-01.json",
            "/data/hostA/snap-2/proc_2023-01-02.json"],
      processFile c10Read ["a"] ["SHA256"] ["proc"] "latin1" p = Except.ok none
      ∨ ∃ m, processFile c10Read ["a"] ["SHA256"] ["proc"] "latin1" p
          = Except.error (PyErr.jsonDecodeError m))
    ∧ (files_to_dfs c10Read
        ["/data/hostA/snap-1/unknown_2023-01-01.json",
         "/data/hostA/snap-2/proc_2023-01-02.json"]
        ["a"] ["SHA256"] ["proc"] "latin1").1
      = Except.error (PyErr.valueError "No objects to concatenate") := by
  have hyp : ∀ p ∈ ["/data/hostA/snap-1/unknown_2023-01-01.json",
      "/data/hostA/snap-2/proc_2023-01-02.json"],
      processFile c10Read ["a"] ["SHA256"] ["proc"] "latin1" p = Except.ok none
      ∨ ∃ m, processFile c10Read ["a"] ["SHA256"] ["proc"] "latin1" p
          = Except.error (PyErr.jsonDecodeError m) := by
    intro p hp
    rcases List.mem_cons.mp hp with rfl | hp
    · exact Or.inl rfl
    · rcases List.mem_cons.mp hp with rfl | hp
      · exact Or.inr ⟨"Expecting value", rfl⟩
      · exact absurd hp (List.not_mem_nil p)
  exact ⟨hyp, files_to_dfs_all_skipped c10Read _ _ _ _ _ hyp⟩

end Morpheus
